import Mathlib

/-
Verification of the request-cache design of proj2_nps.py (interactive
National Park Service site explorer).

The Python source is shallowly embedded below.  Pure helpers become Lean
functions; the stateful cache operations become explicit state-passing
functions over an association-list store (Python dicts are modelled as
association lists in insertion order, matching CPython's dict semantics);
network I/O becomes an explicit oracle argument; exceptions become Option.
The standard-library pair json.dumps / json.loads used by save_cache and
load_cache is modelled by a concrete executable JSON encoder and parser
over the JVal type, with the separators modelled compactly (Python's
default adds spaces after ',' and ':'; no claim observes the file bytes).
-/

/-- JSON-like values: the universe of Python objects held by the cache
dict (strings for fetched page text, decoded JSON for API responses).
Numbers are modelled as integers; no claim involves floating point. -/
inductive JVal where
  | null
  | bool (b : Bool)
  | num (n : Int)
  | str (s : String)
  | arr (items : List JVal)
  | obj (entries : List (String × JVal))

/-- The in-memory cache dict: fingerprint keys to response payloads,
kept in insertion order like a CPython dict. -/
abbrev Store := List (String × JVal)

/-- Dict lookup cache[k] (first matching key; a Store built by insertS
has at most one entry per key, like a Python dict). -/
def lookupS : Store → String → Option JVal
  | [], _ => none
  | (k0, v0) :: t, k => if k0 = k then some v0 else lookupS t k

/-- Dict assignment cache[k] = v: replace in place if the key exists,
otherwise append (CPython insertion-order semantics). -/
def insertS : Store → String → JVal → Store
  | [], k, v => [(k, v)]
  | (k0, v0) :: t, k, v => if k0 = k then (k, v) :: t else (k0, v0) :: insertS t k v

/-- Membership test k in cache. -/
def containsS (c : Store) (k : String) : Bool := (lookupS c k).isSome

/-- construct_unique_key from proj2_nps.py: start from the base url and,
for each parameter in dict iteration (insertion) order whose name is not
the credential name "key", append an underscore separator, the name and
the value.  Parameter values appear already rendered to strings, as the
f-string in the source renders them. -/
def construct_unique_key (baseurl : String) (params : List (String × String)) : String :=
  params.foldl
    (fun acc kv => if kv.1 ≠ "key" then acc ++ "_" ++ kv.1 ++ "_" ++ kv.2 else acc)
    baseurl

/- ---------------------------------------------------------------------
JSON encoder, modelling json.dumps on the cache dict.
--------------------------------------------------------------------- -/

/-- Decimal digit to its character. -/
def digChar (d : Nat) : Char :=
  if d = 0 then '0' else if d = 1 then '1' else if d = 2 then '2' else if d = 3 then '3'
  else if d = 4 then '4' else if d = 5 then '5' else if d = 6 then '6'
  else if d = 7 then '7' else if d = 8 then '8' else '9'

/-- Big-endian decimal digits of n, with enough fuel (any f with n < 10 ^ f). -/
def encNatAux : Nat → Nat → List Char
  | 0, _ => []
  | f+1, n => if n < 10 then [digChar n] else encNatAux f (n / 10) ++ [digChar (n % 10)]

/-- Decimal rendering of a natural number. -/
def encNat (n : Nat) : List Char := encNatAux (n + 1) n

/-- Decimal rendering of an integer, as json.dumps prints Python ints. -/
def encInt (n : Int) : List Char :=
  if n < 0 then '-' :: encNat n.natAbs else encNat n.natAbs

/-- JSON string escaping of one character (the short escapes produced for
the characters the parser below unescapes; other characters are emitted
verbatim). -/
def escChar (c : Char) : List Char :=
  if c = '"' then ['\\', '"']
  else if c = '\\' then ['\\', '\\']
  else if c = '\n' then ['\\', 'n']
  else if c = '\t' then ['\\', 't']
  else if c = '\r' then ['\\', 'r']
  else [c]

/-- Escape a whole character list. -/
def escList : List Char → List Char
  | [] => []
  | c :: t => escChar c ++ escList t

mutual
/-- JSON rendering of a value, modelling json.dumps. -/
def encJVal : JVal → List Char
  | .null => "null".data
  | .bool true => "true".data
  | .bool false => "false".data
  | .num n => encInt n
  | .str s => '"' :: escList s.data ++ ['"']
  | .arr l => '[' :: encArrBody l ++ [']']
  | .obj l => '\x7b' :: encObjBody l ++ ['\x7d']
/-- Comma-separated renderings of array elements. -/
def encArrBody : List JVal → List Char
  | [] => []
  | v :: l => encJVal v ++ (if l.isEmpty then [] else ',' :: encArrBody l)
/-- Comma-separated "key":value renderings of object fields. -/
def encObjBody : List (String × JVal) → List Char
  | [] => []
  | (k, v) :: l =>
    '"' :: escList k.data ++ '"' :: ':' :: encJVal v
      ++ (if l.isEmpty then [] else ',' :: encObjBody l)
end

/- ---------------------------------------------------------------------
JSON parser, modelling json.loads (returns none where Python raises).
--------------------------------------------------------------------- -/

/-- Unescape the character after a backslash in a JSON string. -/
def unescChar (c : Char) : Option Char :=
  if c = '"' then some '"'
  else if c = '\\' then some '\\'
  else if c = '/' then some '/'
  else if c = 'n' then some '\n'
  else if c = 't' then some '\t'
  else if c = 'r' then some '\r'
  else if c = 'b' then some (Char.ofNat 8)
  else if c = 'f' then some (Char.ofNat 12)
  else none

/-- Parse the body of a JSON string up to the closing quote, returning the
decoded characters and the remaining input. -/
def pStrBody : List Char → Option (List Char × List Char)
  | [] => none
  | c :: t =>
    if c = '"' then some ([], t)
    else if c = '\\' then
      match t with
      | [] => none
      | e :: t2 =>
        match unescChar e with
        | none => none
        | some d =>
          match pStrBody t2 with
          | none => none
          | some (s, r) => some (d :: s, r)
    else
      match pStrBody t with
      | none => none
      | some (s, r) => some (c :: s, r)

/-- Numeric value of a digit character. -/
def digVal (c : Char) : Nat := c.toNat - 48

/-- Decimal value of a digit-character list (most significant first). -/
def digitsVal (l : List Char) : Nat := l.foldl (fun a c => 10 * a + digVal c) 0

/-- Parse a run of decimal digits into a number token; neg records a
leading minus sign already consumed. -/
def pNum (neg : Bool) (cs : List Char) : Option (JVal × List Char) :=
  match cs.takeWhile Char.isDigit with
  | [] => none
  | ds =>
    some (.num (if neg then -(Int.ofNat (digitsVal ds)) else Int.ofNat (digitsVal ds)),
      cs.dropWhile Char.isDigit)

mutual
/-- Fuel-indexed parser for one JSON value. -/
def pVal : Nat → List Char → Option (JVal × List Char)
  | 0, _ => none
  | _+1, [] => none
  | f+1, c :: cs =>
    if c.isDigit then pNum false (c :: cs)
    else if c = '-' then pNum true cs
    else if c = '"' then
      match pStrBody cs with
      | some (s, r) => some (.str (String.mk s), r)
      | none => none
    else if c = 'n' then
      match cs with
      | 'u' :: 'l' :: 'l' :: r => some (.null, r)
      | _ => none
    else if c = 't' then
      match cs with
      | 'r' :: 'u' :: 'e' :: r => some (.bool true, r)
      | _ => none
    else if c = 'f' then
      match cs with
      | 'a' :: 'l' :: 's' :: 'e' :: r => some (.bool false, r)
      | _ => none
    else if c = '[' then
      match cs with
      | [] => none
      | c2 :: cs2 =>
        if c2 = ']' then some (.arr [], cs2)
        else
          match pElems f (c2 :: cs2) with
          | some (l, r) => some (.arr l, r)
          | none => none
    else if c = '\x7b' then
      match cs with
      | [] => none
      | c2 :: cs2 =>
        if c2 = '\x7d' then some (.obj [], cs2)
        else
          match pFields f (c2 :: cs2) with
          | some (l, r) => some (.obj l, r)
          | none => none
    else none
/-- Fuel-indexed parser for a nonempty array body including the closing
bracket. -/
def pElems : Nat → List Char → Option (List JVal × List Char)
  | 0, _ => none
  | f+1, cs =>
    match pVal f cs with
    | none => none
    | some (v, r) =>
      match r with
      | [] => none
      | c :: r2 =>
        if c = ',' then
          match pElems f r2 with
          | some (l, r3) => some (v :: l, r3)
          | none => none
        else if c = ']' then some ([v], r2)
        else none
/-- Fuel-indexed parser for a nonempty object body including the closing
brace. -/
def pFields : Nat → List Char → Option (List (String × JVal) × List Char)
  | 0, _ => none
  | f+1, cs =>
    match cs with
    | [] => none
    | c :: cs1 =>
      if c = '"' then
        match pStrBody cs1 with
        | none => none
        | some (k, r) =>
          match r with
          | [] => none
          | c2 :: r1 =>
            if c2 = ':' then
              match pVal f r1 with
              | none => none
              | some (v, r2) =>
                match r2 with
                | [] => none
                | c3 :: r3 =>
                  if c3 = ',' then
                    match pFields f r3 with
                    | some (l, r4) => some ((String.mk k, v) :: l, r4)
                    | none => none
                  else if c3 = '\x7d' then some ([(String.mk k, v)], r3)
                  else none
            else none
      else none
end

/-- Parse a whole JSON document (json.loads): the input's length plus one
is always enough fuel, and the entire input must be consumed. -/
def parseJson (s : String) : Option JVal :=
  match pVal (s.data.length + 1) s.data with
  | some (v, []) => some v
  | _ => none

/-- A tail is safe to follow a rendered number when it does not begin
with a digit (so the digit scan stops at the value boundary). -/
def safeTail : List Char → Bool
  | [] => true
  | c :: _ => !c.isDigit

mutual
/-- Structural size of a value, a lower bound for the parser fuel it
needs. -/
def szV : JVal → Nat
  | .arr l => 1 + szA l
  | .obj l => 1 + szO l
  | _ => 1
/-- Fuel size of an array body. -/
def szA : List JVal → Nat
  | [] => 0
  | v :: t => 1 + szV v + szA t
/-- Fuel size of an object body. -/
def szO : List (String × JVal) → Nat
  | [] => 0
  | (_, v) :: t => 1 + szV v + szO t
end

/- ---------------------------------------------------------------------
Cache persistence: save_cache / load_cache from proj2_nps.py.
The durable file is modelled as Option String (none when the file is
absent or unreadable).
--------------------------------------------------------------------- -/

/-- Fixed path constant CACHE_FILE_NAME from the source. -/
def CACHE_FILE_NAME : String := "cache.json"

/-- save_cache: the content json.dumps(cache) written over the whole file. -/
def save_cache (cache : Store) : String := String.mk (encJVal (.obj cache))

/-- load_cache: read the file and json.loads its content; the bare except
turns any read or parse failure into the empty dict.  A file holding
valid JSON that is not an object is returned as-is (json.loads succeeds),
so the result type is JVal. -/
def load_cache (file : Option String) : JVal :=
  match file with
  | none => .obj []
  | some contents =>
    match parseJson contents with
    | some v => v
    | none => .obj []

/- ---------------------------------------------------------------------
make_url_request_using_cache: the page-fetch path.
--------------------------------------------------------------------- -/

/-- Observable state around the page-fetch path: the in-memory cache dict,
the durable file, and a count of network fetches issued. -/
structure WebState where
  cache : Store
  file : Option String
  fetches : Nat

/-- make_url_request_using_cache from proj2_nps.py, over an explicit
network oracle fetch giving each url's response text.  On a hit it
returns cache[url] and touches nothing; on a miss it fetches (after the
courtesy sleep, not modelled), stores response.text under the url,
writes the whole store to the durable file, and returns cache[url]. -/
def make_url_request_using_cache (fetch : String → String) (url : String)
    (s : WebState) : Option JVal × WebState :=
  if containsS s.cache url then
    (lookupS s.cache url, s)
  else
    let c := insertS s.cache url (.str (fetch url))
    (lookupS c url, { cache := c, file := some (save_cache c), fetches := s.fetches + 1 })

/- ---------------------------------------------------------------------
make_api_request_using_cache: the API path.
--------------------------------------------------------------------- -/

/-- Result of one call to make_api_request_using_cache: the returned value
(none models an uncaught KeyError), the module-level CACHE afterwards,
and the durable file afterwards. -/
structure ApiResult where
  result : Option JVal
  globalCache : Store
  file : Option String

/-- make_api_request_using_cache from proj2_nps.py.  The membership test
is on the cache PARAMETER, but the store, the save and the returned
lookup all use the module-level CACHE (globalCache here); resp models
requests.get(baseurl, params).json().  In the program's only call the
two stores are the same object; the definition keeps them separate so
the function's contract over an arbitrary passed-in store is visible. -/
def make_api_request_using_cache (baseurl : String) (params : List (String × String))
    (cache : Store) (globalCache : Store) (file : Option String) (resp : JVal) : ApiResult :=
  let uk := construct_unique_key baseurl params
  if containsS cache uk then
    { result := lookupS globalCache uk, globalCache := globalCache, file := file }
  else
    let g := insertS globalCache uk resp
    { result := lookupS g uk, globalCache := g, file := some (save_cache g) }

/- ---------------------------------------------------------------------
NationalSite and get_site_instance.
--------------------------------------------------------------------- -/

/-- The NationalSite class of proj2_nps.py. -/
structure NationalSite where
  category : String
  name : String
  address : String
  zipcode : String
  phone : String
deriving DecidableEq

instance : Inhabited NationalSite := ⟨⟨"", "", "", "", ""⟩⟩

/-- NationalSite.info. -/
def NationalSite.info (s : NationalSite) : String :=
  s.name ++ " (" ++ s.category ++ "): " ++ s.address ++ " " ++ s.zipcode

/-- The vcard contact block of a site detail page, with the HTML
navigation of get_site_instance abstracted to optional span texts: a
field is none exactly when BeautifulSoup's find returns None, making the
corresponding .text access raise inside the try. -/
structure VCard where
  addressLocality : Option String
  addressRegion : Option String
  postalCode : Option String
  tel : Option String

/-- get_site_instance from proj2_nps.py (field extraction after the HTML
lookups): each try/except yields the sentinel whenever a needed span is
missing — for the address, whenever either the locality or the region is
missing.  Python's .strip() is modelled by String.trim. -/
def get_site_instance (name category : String) (card : VCard) : NationalSite :=
  let address :=
    match card.addressLocality, card.addressRegion with
    | some loc, some reg => loc ++ ", " ++ reg
    | _, _ => "no address"
  let postcode :=
    match card.postalCode with
    | some p => p.trim
    | none => "no zipcode"
  let phone :=
    match card.tel with
    | some t => t.trim
    | none => "no phone"
  { category := category, name := name, address := address, zipcode := postcode, phone := phone }

/- ---------------------------------------------------------------------
list_places: formatting of nearby-places API records.
--------------------------------------------------------------------- -/

/-- Python subscription place[k]: a KeyError (missing key) or TypeError
(not a dict) is an uncaught crash, modelled as none. -/
def jGet (v : JVal) (k : String) : Option JVal :=
  match v with
  | .obj fields => lookupS fields k
  | _ => none

/-- Python d.get(k, default): requires a dict (none models the crash on
anything else), and never fails on a missing key. -/
def dictGetD (v : JVal) (k : String) (d : JVal) : Option JVal :=
  match v with
  | .obj fields => some ((lookupS fields k).getD d)
  | _ => none

/-- The four fields printed per place by list_places. -/
structure PlaceView where
  name : JVal
  category : JVal
  address : JVal
  city : JVal

/-- One loop body of list_places: name via place["name"] (no fallback),
city and category via place["fields"].get with a sentinel default plus
an empty-string check, address via place.get with the same convention.
The comparison v == "" is Python equality: true only for the string
value "". -/
def formatPlace (place : JVal) : Option PlaceView :=
  match jGet place "name" with
  | none => none
  | some nm =>
    match jGet place "fields" with
    | none => none
    | some fields =>
      match dictGetD fields "city" (.str "no city") with
      | none => none
      | some city0 =>
        let city :=
          match city0 with
          | .str s => if s = "" then JVal.str "no city" else JVal.str s
          | _ => city0
        match dictGetD fields "group_sic_code_name" (.str "no category") with
        | none => none
        | some cat0 =>
          let category :=
            match cat0 with
            | .str s => if s = "" then JVal.str "no category" else JVal.str s
            | _ => cat0
          match dictGetD place "address" (.str "no address") with
          | none => none
          | some addr0 =>
            let address :=
              match addr0 with
              | .str s => if s = "" then JVal.str "no address" else JVal.str s
              | _ => addr0
            some { name := nm, category := category, address := address, city := city }

/-- The whole for-loop of list_places; the first crashing record aborts. -/
def formatPlaces : List JVal → Option (List PlaceView)
  | [] => some []
  | p :: t =>
    match formatPlace p, formatPlaces t with
    | some pv, some l => some (pv :: l)
    | _, _ => none

/-- list_places from proj2_nps.py, reduced to the data it prints: iterates
places["searchResults"]; anything other than an array there makes the
iteration crash on the first subscription. -/
def list_places (places : JVal) : Option (List PlaceView) :=
  match jGet places "searchResults" with
  | some (.arr results) => formatPlaces results
  | _ => none

/- ---------------------------------------------------------------------
The interactive loop, site-selection state (state == 1 branch).
--------------------------------------------------------------------- -/

/-- The Unicode character data that CPython's str.isdigit and int()
consult, made an explicit oracle like the network fetch (the tables are
stdlib data, not code of this repository).  decVal gives a character's
decimal digit value when its Unicode Numeric_Type is Decimal (category
Nd, the characters int() accepts, e.g. '0'-'9' and the Arabic-Indic
digits); isDigitExtra marks the characters whose Numeric_Type is Digit
but not Decimal (e.g. the superscript digits), which str.isdigit counts
as digits even though int() rejects them. -/
structure PyUnicode where
  decVal : Char → Option Nat
  isDigitExtra : Char → Bool

/-- Python str.isdigit: nonempty and every character has Numeric_Type
Decimal or Digit under the given tables. -/
def pyIsdigit (uni : PyUnicode) (s : String) : Bool :=
  !s.data.isEmpty && s.data.all (fun c => (uni.decVal c).isSome || uni.isDigitExtra c)

/-- Python int() as reached behind the isdigit guard (so no sign,
whitespace or underscore can occur): the decimal value when every
character is a decimal digit, none (a ValueError) when any character is
a digit without being decimal. -/
def pyIntDigits (uni : PyUnicode) (l : List Char) : Option Nat :=
  l.foldl
    (fun acc c =>
      match acc, uni.decVal c with
      | some a, some d => some (10 * a + d)
      | _, _ => none)
    (some 0)

/-- Observable outcome of one normally completed iteration of the loop in
site-selection state: the state variable afterwards, the listed sites
afterwards, how many nearby-places requests were issued, the error lines
printed, and whether the loop broke. -/
structure Step1Result where
  nextState : Nat
  sites : List NationalSite
  apiCalls : Nat
  errors : List String
  finished : Bool
deriving DecidableEq

/-- Outcome of one iteration of the site-selection state: either the loop
continues (or breaks) normally, or an uncaught ValueError from int()
kills the session. -/
inductive Step1Outcome where
  | next (r : Step1Result)
  | valueError
deriving DecidableEq

/-- One iteration of the __main__ loop with state == 1, given the Unicode
tables, the listed sites and the user's input line (not lowercased in
this state): exit breaks; back returns to state 0; an input failing
isdigit prints an error and stays (int is short-circuited away); an
input passing isdigit but containing a non-decimal digit character makes
int() raise an uncaught ValueError inside the if condition — the
session crashes; a decimal index of 0 or above the site count prints an
error and stays; a selected site with zipcode "no zipcode" or "" prints
an error and stays; otherwise get_nearby_places runs once and the loop
stays in state 1. -/
def interactiveStep1 (uni : PyUnicode) (sites : List NationalSite)
    (input : String) : Step1Outcome :=
  if input = "exit" then .next ⟨1, sites, 0, [], true⟩
  else if input = "back" then .next ⟨0, sites, 0, [], false⟩
  else if !pyIsdigit uni input then
    .next ⟨1, sites, 0, ["[Error] Invalid input"], false⟩
  else
    match pyIntDigits uni input.data with
    | none => .valueError
    | some n =>
      if n = 0 ∨ sites.length < n then
        .next ⟨1, sites, 0, ["[Error] Invalid input"], false⟩
      else
        let target := sites.getD (n - 1) default
        if target.zipcode = "no zipcode" || target.zipcode = "" then
          .next ⟨1, sites, 0, ["[Error] No address info for the selected site"], false⟩
        else
          .next ⟨1, sites, 1, [], false⟩

/-- A concrete fragment of the real Unicode tables, for evaluating the
embedding at specific inputs: the ASCII and Arabic-Indic decimal digits,
and the Latin-1 superscript digits as digit-but-not-decimal.  The
fragment agrees with CPython on every character it classifies; theorems
quantifying over PyUnicode cover the full tables in particular. -/
def uniFragment : PyUnicode where
  decVal c :=
    if 48 ≤ c.toNat ∧ c.toNat ≤ 57 then some (c.toNat - 48)
    else if 1632 ≤ c.toNat ∧ c.toNat ≤ 1641 then some (c.toNat - 1632)
    else none
  isDigitExtra c := c == '¹' || c == '²' || c == '³'

/- ---------------------------------------------------------------------
Theorems.  First: facts about construct_unique_key.
--------------------------------------------------------------------- -/

/-- Unfolding of the fingerprint fold over one parameter. -/
theorem cuk_cons (b : String) (kv : String × String) (t : List (String × String)) :
    construct_unique_key b (kv :: t)
      = construct_unique_key (if kv.1 ≠ "key" then b ++ "_" ++ kv.1 ++ "_" ++ kv.2 else b) t :=
  rfl

/-- Unfolding of the fingerprint on no parameters. -/
theorem cuk_nil (b : String) : construct_unique_key b [] = b := rfl

/-- A common leading piece of the base target factors out of the
fingerprint. -/
theorem cuk_base_append (p : List (String × String)) :
    ∀ b s : String, construct_unique_key (b ++ s) p = b ++ construct_unique_key s p := by
  induction p with
  | nil => intro b s; rfl
  | cons kv t ih =>
    intro b s
    rw [cuk_cons, cuk_cons]
    by_cases h : kv.1 = "key"
    · simp only [h, ne_eq, not_true_eq_false, if_false]
      exact ih b s
    · simp only [ne_eq, h, not_false_eq_true, if_true, String.append_assoc]
      exact ih b (s ++ ("_" ++ (kv.1 ++ ("_" ++ kv.2))))

/-- The base target always leads the fingerprint. -/
theorem cuk_leading (b : String) (p : List (String × String)) :
    ∃ t, construct_unique_key b p = b ++ t := by
  refine ⟨construct_unique_key "" p, ?_⟩
  have h := cuk_base_append p b ""
  rwa [String.append_empty] at h

/-- The fingerprint only depends on the sequence of non-credential
parameters. -/
theorem cuk_filter (p : List (String × String)) :
    ∀ b, construct_unique_key b p
      = construct_unique_key b (p.filter fun kv => kv.1 != "key") := by
  induction p with
  | nil => intro b; rfl
  | cons kv t ih =>
    intro b
    by_cases h : kv.1 = "key"
    · simp only [List.filter_cons, h, bne_self_eq_false, cuk_cons, ne_eq, not_true_eq_false,
        if_false]
      exact ih b
    · have hb : (kv.1 != "key") = true := by simpa using h
      simp only [List.filter_cons, hb, if_true, cuk_cons, ne_eq, h, not_false_eq_true]
      exact ih _

/-- C1 counterexample: two parameter dicts holding the same mapping but
built in different insertion orders (a permutation of one another)
produce different fingerprint strings. -/
theorem c1_order_counterexample :
    ([("a", "1"), ("c", "2")] : List (String × String)).Perm [("c", "2"), ("a", "1")]
      ∧ construct_unique_key "b" [("a", "1"), ("c", "2")]
          ≠ construct_unique_key "b" [("c", "2"), ("a", "1")] := by
  constructor
  · decide
  · decide

/-- C1 (amended): the fingerprint is deterministic in the base target and
the insertion-order sequence of non-credential parameters: two parameter
lists whose non-credential key/value sequences agree (in order) yield
identical fingerprints; different insertion orders may differ. -/
theorem c1_fingerprint_sequence_determinism (b : String)
    (p p' : List (String × String))
    (h : p.filter (fun kv => kv.1 != "key") = p'.filter (fun kv => kv.1 != "key")) :
    construct_unique_key b p = construct_unique_key b p' := by
  rw [cuk_filter p b, cuk_filter p' b, h]

/-- Witness for C1: concrete lists differing in credential placement but
with equal non-credential sequences get equal fingerprints. -/
theorem c1_fingerprint_sequence_determinism_witness :
    construct_unique_key "b" [("key", "A"), ("a", "1")]
      = construct_unique_key "b" [("a", "1"), ("key", "B")] :=
  c1_fingerprint_sequence_determinism "b" _ _ (by decide)

/-- C3: changing only the value carried by the credential parameter named
"key" (every occurrence) never changes the fingerprint. -/
theorem c3_credential_exclusion (v' : String) (p : List (String × String)) :
    ∀ b, construct_unique_key b
        (p.map fun kv => if kv.1 = "key" then ("key", v') else kv)
      = construct_unique_key b p := by
  induction p with
  | nil => intro b; rfl
  | cons kv t ih =>
    intro b
    by_cases h : kv.1 = "key"
    · simp only [List.map_cons, h, if_true, cuk_cons, ne_eq, not_true_eq_false, if_false]
      exact ih b
    · simp only [List.map_cons, h, if_false, cuk_cons, ne_eq, not_false_eq_true, if_true]
      exact ih _

/-- C10: a fingerprint over an empty parameter dict, or one holding only
the credential, is the bare base target; every fingerprint extends its
base target on the left; hence the API path keyed by such a fingerprint
reads (on a hit) and overwrites (on a miss) the very entry the text-fetch
path keeps under the same url, the two paths sharing one key namespace. -/
theorem c10_fingerprint_namespace (b v : String) (p : List (String × String))
    (cache : Store) (file : Option String) (r : JVal) :
    construct_unique_key b [] = b
      ∧ construct_unique_key b [("key", v)] = b
      ∧ (∃ t, construct_unique_key b p = b ++ t)
      ∧ (containsS cache b = true →
          (make_api_request_using_cache b [("key", v)] cache cache file r).result
            = lookupS cache b)
      ∧ (containsS cache b = false →
          (make_api_request_using_cache b [("key", v)] cache cache file r).globalCache
            = insertS cache b r) := by
  have huk : construct_unique_key b [("key", v)] = b := rfl
  refine ⟨rfl, huk, cuk_leading b p, ?_, ?_⟩
  · intro h
    simp [make_api_request_using_cache, huk, h]
  · intro h
    simp [make_api_request_using_cache, huk, h]

/-- Witness for C10: with the page fetch of url "u" cached, the API path
with credential-only params reads that entry; with an empty store it
inserts under "u" itself. -/
theorem c10_fingerprint_namespace_witness :
    (make_api_request_using_cache "u" [("key", "k0")] [("u", JVal.str "page")]
        [("u", JVal.str "page")] none JVal.null).result
      = lookupS [("u", JVal.str "page")] "u"
    ∧ (make_api_request_using_cache "u" [("key", "k0")] [] [] none JVal.null).globalCache
        = insertS [] "u" JVal.null := by
  constructor
  · exact (c10_fingerprint_namespace "u" "k0" [] [("u", JVal.str "page")] none
      JVal.null).2.2.2.1 rfl
  · exact (c10_fingerprint_namespace "u" "k0" [] [] none JVal.null).2.2.2.2 rfl

/-- C2: the code checks membership in the cache argument but returns and
stores through the module-level CACHE.  With the fingerprint present in
the passed-in store and absent from the module store, the hit branch
returns none (a KeyError in Python) instead of the cached value that the
passed-in store holds. -/
theorem c2_global_cache_divergence :
    (make_api_request_using_cache "b" [("a", "1")] [("b_a_1", JVal.str "cached")] []
        none (JVal.str "fresh")).result = none
      ∧ lookupS [("b_a_1", JVal.str "cached")] (construct_unique_key "b" [("a", "1")])
          = some (JVal.str "cached") := by
  constructor
  · rfl
  · rfl

/- ---------------------------------------------------------------------
Store lemmas and C4.
--------------------------------------------------------------------- -/

/-- Looking up the key just assigned yields the assigned value. -/
theorem lookupS_insertS_self (c : Store) (k : String) (v : JVal) :
    lookupS (insertS c k v) k = some v := by
  induction c with
  | nil => simp [insertS, lookupS]
  | cons hd t ih =>
    by_cases h : hd.1 = k
    · simp [insertS, lookupS, h]
    · simp [insertS, lookupS, h, ih]

/-- A just-assigned key is present. -/
theorem containsS_insertS_self (c : Store) (k : String) (v : JVal) :
    containsS (insertS c k v) k = true := by
  simp [containsS, lookupS_insertS_self]

/-- C4: two calls of make_url_request_using_cache on the same url fetch at
most once; the second call returns the same content as the first and
changes nothing (no network, no store or file write); a first-call hit
leaves the whole state untouched, and a first-call miss leaves the file
holding exactly the serialized store. -/
theorem c4_cache_idempotence (fetch : String → String) (url : String) (s : WebState) :
    (make_url_request_using_cache fetch url (make_url_request_using_cache fetch url s).2).1
        = (make_url_request_using_cache fetch url s).1
      ∧ (make_url_request_using_cache fetch url (make_url_request_using_cache fetch url s).2).2
          = (make_url_request_using_cache fetch url s).2
      ∧ (make_url_request_using_cache fetch url s).2.fetches ≤ s.fetches + 1
      ∧ (containsS s.cache url = true → (make_url_request_using_cache fetch url s).2 = s)
      ∧ (containsS s.cache url = false →
          (make_url_request_using_cache fetch url s).2.file
              = some (save_cache (make_url_request_using_cache fetch url s).2.cache)
            ∧ (make_url_request_using_cache fetch url s).2.fetches = s.fetches + 1) := by
  by_cases h : containsS s.cache url
  · have e : make_url_request_using_cache fetch url s = (lookupS s.cache url, s) := by
      simp [make_url_request_using_cache, h]
    simp [e, h]
  · have h' : containsS s.cache url = false := by simpa using h
    have e : make_url_request_using_cache fetch url s
        = (lookupS (insertS s.cache url (.str (fetch url))) url,
            ⟨insertS s.cache url (.str (fetch url)),
              some (save_cache (insertS s.cache url (.str (fetch url)))), s.fetches + 1⟩) := by
      simp [make_url_request_using_cache, h']
    have e2 : make_url_request_using_cache fetch url
        (⟨insertS s.cache url (.str (fetch url)),
          some (save_cache (insertS s.cache url (.str (fetch url)))),
          s.fetches + 1⟩ : WebState)
        = (lookupS (insertS s.cache url (.str (fetch url))) url,
            ⟨insertS s.cache url (.str (fetch url)),
              some (save_cache (insertS s.cache url (.str (fetch url)))), s.fetches + 1⟩) := by
      simp [make_url_request_using_cache, containsS_insertS_self]
    simp [e, e2, h']

/-- Witness for C4 at a concrete miss-then-hit pair of calls. -/
theorem c4_cache_idempotence_witness :
    (make_url_request_using_cache (fun _ => "page") "u"
          (make_url_request_using_cache (fun _ => "page") "u" ⟨[], none, 0⟩).2).1
        = (make_url_request_using_cache (fun _ => "page") "u" ⟨[], none, 0⟩).1
      ∧ (make_url_request_using_cache (fun _ => "page") "u"
            (make_url_request_using_cache (fun _ => "page") "u" ⟨[], none, 0⟩).2).2
          = (make_url_request_using_cache (fun _ => "page") "u" ⟨[], none, 0⟩).2
      ∧ (make_url_request_using_cache (fun _ => "page") "u" ⟨[], none, 0⟩).2.file
          = some (save_cache
              (make_url_request_using_cache (fun _ => "page") "u" ⟨[], none, 0⟩).2.cache)
      ∧ (make_url_request_using_cache (fun _ => "page") "u" ⟨[], none, 0⟩).2.fetches
          = 0 + 1 := by
  have T := c4_cache_idempotence (fun _ => "page") "u" ⟨[], none, 0⟩
  exact ⟨T.1, T.2.1, (T.2.2.2.2 rfl).1, (T.2.2.2.2 rfl).2⟩

/- ---------------------------------------------------------------------
C8: sentinel fallbacks in get_site_instance.
--------------------------------------------------------------------- -/

/-- C8: a missing postal-code span yields exactly "no zipcode", a missing
phone span exactly "no phone", and a missing locality or region span
exactly "no address"; get_site_instance is total, so a Site is produced
in every case. -/
theorem c8_site_sentinels (name category : String) (card : VCard) :
    (card.postalCode = none → (get_site_instance name category card).zipcode = "no zipcode")
      ∧ (card.tel = none → (get_site_instance name category card).phone = "no phone")
      ∧ ((card.addressLocality = none ∨ card.addressRegion = none) →
          (get_site_instance name category card).address = "no address") := by
  refine ⟨?_, ?_, ?_⟩
  · intro h; simp [get_site_instance, h]
  · intro h; simp [get_site_instance, h]
  · intro h
    rcases h with h | h
    · simp [get_site_instance, h]
    · cases hl : card.addressLocality <;> simp [get_site_instance, h, hl]

/-- Witness for C8 on a contact card with every span missing. -/
theorem c8_site_sentinels_witness :
    (get_site_instance "S" "park" ⟨none, none, none, none⟩).zipcode = "no zipcode"
      ∧ (get_site_instance "S" "park" ⟨none, none, none, none⟩).phone = "no phone"
      ∧ (get_site_instance "S" "park" ⟨none, none, none, none⟩).address = "no address" := by
  have T := c8_site_sentinels "S" "park" ⟨none, none, none, none⟩
  exact ⟨T.1 rfl, T.2.1 rfl, T.2.2 (Or.inl rfl)⟩

/- ---------------------------------------------------------------------
C9: input validation in the site-selection state.
--------------------------------------------------------------------- -/

/-- C9: the claim — every non-numeric or out-of-range selection prints an
error, makes no network call and leaves the site-selection state with
the listed sites unchanged — is the evident intent, but the code's guard
is a slip: it tests str.isdigit before calling int(), and the digit
characters that are not decimal pass the guard while int() rejects them.
With three sites listed, the input "²" satisfies isdigit, int raises,
and the session dies on an uncaught ValueError with no error line and no
re-prompt; the decimal out-of-range input "5" is still rejected in
place, and the Arabic-Indic digit "٣" is a valid selection of site 3
that issues one nearby-places request. -/
theorem c9_isdigit_valueerror_crash :
    pyIsdigit uniFragment "²" = true
      ∧ pyIntDigits uniFragment "²".data = none
      ∧ interactiveStep1 uniFragment
          [⟨"", "A", "a1", "1", "p"⟩, ⟨"", "B", "a2", "2", "p"⟩,
            ⟨"", "C", "a3", "49931", "p"⟩] "²"
          = .valueError
      ∧ interactiveStep1 uniFragment
          [⟨"", "A", "a1", "1", "p"⟩, ⟨"", "B", "a2", "2", "p"⟩,
            ⟨"", "C", "a3", "49931", "p"⟩] "5"
          = .next ⟨1, [⟨"", "A", "a1", "1", "p"⟩, ⟨"", "B", "a2", "2", "p"⟩,
              ⟨"", "C", "a3", "49931", "p"⟩], 0, ["[Error] Invalid input"], false⟩
      ∧ interactiveStep1 uniFragment
          [⟨"", "A", "a1", "1", "p"⟩, ⟨"", "B", "a2", "2", "p"⟩,
            ⟨"", "C", "a3", "49931", "p"⟩] "٣"
          = .next ⟨1, [⟨"", "A", "a1", "1", "p"⟩, ⟨"", "B", "a2", "2", "p"⟩,
              ⟨"", "C", "a3", "49931", "p"⟩], 1, [], false⟩ := by
  refine ⟨rfl, rfl, rfl, rfl, rfl⟩

/- ---------------------------------------------------------------------
C7: sentinel resolution in list_places.
--------------------------------------------------------------------- -/

/-- C7 counterexample: a result record without a "name" key makes
list_places crash (none) — the name field has no sentinel fallback — and
an empty name is printed as the empty string, not as a sentinel. -/
theorem c7_name_counterexample :
    list_places (JVal.obj [("searchResults",
          JVal.arr [JVal.obj [("fields", JVal.obj []), ("address", JVal.str "x")]])])
        = none
      ∧ (formatPlace (JVal.obj [("name", JVal.str ""), ("fields", JVal.obj []),
            ("address", JVal.str "x")])).map PlaceView.name = some (JVal.str "") := by
  constructor
  · rfl
  · rfl

/-- C7 (amended): for a result record that is a dict containing a "name"
key and a dict under "fields", formatting succeeds; the category,
address and city fields resolve to their "no X" sentinels whenever the
source entry is missing or the empty string, while name is passed through
exactly as stored (a record without "name" or "fields" crashes instead). -/
theorem c7_sentinel_fields_amended (pfl : List (String × JVal)) (nm : JVal)
    (fl : List (String × JVal))
    (hn : lookupS pfl "name" = some nm)
    (hf : lookupS pfl "fields" = some (.obj fl)) :
    ∃ pv : PlaceView, formatPlace (.obj pfl) = some pv ∧ pv.name = nm
      ∧ ((lookupS fl "city" = none ∨ lookupS fl "city" = some (.str "")) →
          pv.city = .str "no city")
      ∧ ((lookupS fl "group_sic_code_name" = none
            ∨ lookupS fl "group_sic_code_name" = some (.str "")) →
          pv.category = .str "no category")
      ∧ ((lookupS pfl "address" = none ∨ lookupS pfl "address" = some (.str "")) →
          pv.address = .str "no address") := by
  simp only [formatPlace, jGet, dictGetD, hn, hf]
  refine ⟨_, rfl, rfl, ?_, ?_, ?_⟩
  · rintro (h | h) <;> simp [h]
  · rintro (h | h) <;> simp [h]
  · rintro (h | h) <;> simp [h]

/-- Witness for C7 on a record with a name, an empty fields dict and no
address entry. -/
theorem c7_sentinel_fields_amended_witness :
    ∃ pv : PlaceView,
      formatPlace (.obj [("name", JVal.str "X"), ("fields", JVal.obj [])]) = some pv
        ∧ pv.name = JVal.str "X" ∧ pv.city = .str "no city"
        ∧ pv.category = .str "no category" ∧ pv.address = .str "no address" := by
  obtain ⟨pv, h1, h2, h3, h4, h5⟩ := c7_sentinel_fields_amended
    [("name", JVal.str "X"), ("fields", JVal.obj [])] (JVal.str "X") [] rfl rfl
  exact ⟨pv, h1, h2, h3 (Or.inl rfl), h4 (Or.inl rfl), h5 (Or.inl rfl)⟩

/- ---------------------------------------------------------------------
Codec correctness, part 1: numbers and strings.
--------------------------------------------------------------------- -/

/-- Digit characters are digits and carry their value. -/
theorem digChar_spec (d : Nat) (h : d < 10) :
    (digChar d).isDigit = true ∧ digVal (digChar d) = d := by
  interval_cases d <;> exact ⟨by decide, by decide⟩

/-- A digit character is none of the JSON structural delimiters. -/
theorem digit_ne_delims (c : Char) (h : c.isDigit = true) :
    c ≠ ']' ∧ c ≠ '\x7d' ∧ c ≠ ',' := by
  refine ⟨?_, ?_, ?_⟩ <;> rintro rfl <;> exact absurd h (by decide)

/-- Appending one digit multiplies the accumulated value by ten. -/
theorem digitsVal_append_digit (xs : List Char) (d : Char) :
    digitsVal (xs ++ [d]) = 10 * digitsVal xs + digVal d := by
  simp [digitsVal, List.foldl_append]

/-- Every character the number renderer emits is a digit. -/
theorem encNatAux_all_digits : ∀ f n c, c ∈ encNatAux f n → c.isDigit = true := by
  intro f
  induction f with
  | zero => intro n c hc; simp [encNatAux] at hc
  | succ f ih =>
    intro n c hc
    by_cases h : n < 10
    · simp [encNatAux, h] at hc
      subst hc
      exact (digChar_spec n h).1
    · simp [encNatAux, h] at hc
      rcases hc with hc | hc
      · exact ih _ _ hc
      · subst hc
        exact (digChar_spec (n % 10) (Nat.mod_lt _ (by norm_num))).1

/-- The number renderer never returns the empty list when given fuel. -/
theorem encNatAux_ne_nil (f n : Nat) : encNatAux (f + 1) n ≠ [] := by
  by_cases h : n < 10 <;> simp [encNatAux, h]

/-- With enough fuel the rendered digits evaluate back to the number. -/
theorem encNatAux_val : ∀ f n, n < 10 ^ f → digitsVal (encNatAux f n) = n := by
  intro f
  induction f with
  | zero => intro n h; interval_cases n; rfl
  | succ f ih =>
    intro n h
    by_cases h10 : n < 10
    · simp only [encNatAux, h10, if_true]
      have := (digChar_spec n h10).2
      simp [digitsVal, this]
    · simp only [encNatAux, h10, if_false]
      rw [digitsVal_append_digit]
      have hdiv : n / 10 < 10 ^ f := by
        apply Nat.div_lt_of_lt_mul
        rw [pow_succ] at h
        omega
      rw [ih _ hdiv, (digChar_spec (n % 10) (Nat.mod_lt _ (by norm_num))).2]
      omega

/-- encNat is nonempty, all digits, and evaluates back to its argument. -/
theorem encNat_spec (n : Nat) :
    encNat n ≠ [] ∧ (∀ c ∈ encNat n, c.isDigit = true) ∧ digitsVal (encNat n) = n := by
  refine ⟨encNatAux_ne_nil n n, fun c hc => encNatAux_all_digits _ _ _ hc, ?_⟩
  have hn : n < 10 ^ (n + 1) :=
    lt_of_lt_of_le (Nat.lt_pow_self (by norm_num) n)
      (Nat.pow_le_pow_right (by norm_num) (Nat.le_succ n))
  exact encNatAux_val _ _ hn

/-- Scanning digits through a rendered digit run stops exactly at a safe
tail. -/
theorem span_digits_append (ds rest : List Char) (hd : ∀ c ∈ ds, c.isDigit = true)
    (hs : safeTail rest = true) :
    (ds ++ rest).takeWhile Char.isDigit = ds
      ∧ (ds ++ rest).dropWhile Char.isDigit = rest := by
  induction ds with
  | nil =>
    cases rest with
    | nil => exact ⟨rfl, rfl⟩
    | cons c t =>
      have hc : c.isDigit = false := by simpa [safeTail] using hs
      simp [List.takeWhile, List.dropWhile, hc]
  | cons c t ih =>
    have hc : c.isDigit = true := hd c (List.mem_cons_self c t)
    have iht := ih (fun x hx => hd x (List.mem_cons_of_mem c hx))
    simp [List.takeWhile, List.dropWhile, hc, iht.1, iht.2]

/-- The number-token parser inverts the number renderer up to a safe
tail. -/
theorem pNum_spec (neg : Bool) (ds rest : List Char) (hne : ds ≠ [])
    (hd : ∀ c ∈ ds, c.isDigit = true) (hs : safeTail rest = true) :
    pNum neg (ds ++ rest)
      = some (.num (if neg then -(Int.ofNat (digitsVal ds)) else Int.ofNat (digitsVal ds)),
          rest) := by
  have hspan := span_digits_append ds rest hd hs
  rcases ds with _ | ⟨c, t⟩
  · exact absurd rfl hne
  · simp only [pNum, hspan.1, hspan.2]

/-- One-step unfolding of the string-body parser on a cons cell. -/
theorem pStrBody_cons (c : Char) (t : List Char) :
    pStrBody (c :: t)
      = if c = '"' then some ([], t)
        else if c = '\\' then
          match t with
          | [] => none
          | e :: t2 =>
            match unescChar e with
            | none => none
            | some d =>
              match pStrBody t2 with
              | none => none
              | some (s, r) => some (d :: s, r)
        else
          match pStrBody t with
          | none => none
          | some (s, r) => some (c :: s, r) := by
  rw [pStrBody.eq_def]

/-- The string-body parser inverts the escaper: reading an escaped body
followed by a closing quote recovers the original characters. -/
theorem pStrBody_escList : ∀ s rest : List Char,
    pStrBody (escList s ++ '"' :: rest) = some (s, rest) := by
  intro s
  induction s with
  | nil =>
    intro rest
    rw [show escList [] ++ '"' :: rest = '"' :: rest from rfl, pStrBody_cons]
    simp
  | cons c t ih =>
    intro rest
    rw [show escList (c :: t) = escChar c ++ escList t from rfl]
    by_cases h1 : c = '"'
    · subst h1; simp [escChar, pStrBody_cons, unescChar, ih]
    · by_cases h2 : c = '\\'
      · subst h2; simp [escChar, pStrBody_cons, unescChar, ih]
      · by_cases h3 : c = '\n'
        · subst h3; simp [escChar, pStrBody_cons, unescChar, ih]
        · by_cases h4 : c = '\t'
          · subst h4; simp [escChar, pStrBody_cons, unescChar, ih]
          · by_cases h5 : c = '\r'
            · subst h5; simp [escChar, pStrBody_cons, unescChar, ih]
            · simp [escChar, pStrBody_cons, h1, h2, h3, h4, h5, ih]

/-- The rendering of any value is nonempty and starts with a character
that is not a closing delimiter or separator. -/
theorem encJVal_head (v : JVal) :
    ∃ c t, encJVal v = c :: t ∧ c ≠ ']' ∧ c ≠ '\x7d' ∧ c ≠ ',' := by
  cases v with
  | null => exact ⟨'n', ['u', 'l', 'l'], by simp [encJVal], by decide, by decide, by decide⟩
  | bool b =>
    cases b with
    | true => exact ⟨'t', ['r', 'u', 'e'], by simp [encJVal], by decide, by decide, by decide⟩
    | false =>
      exact ⟨'f', ['a', 'l', 's', 'e'], by simp [encJVal], by decide, by decide, by decide⟩
  | num n =>
    by_cases hn : n < 0
    · exact ⟨'-', encNat n.natAbs, by simp [encJVal, encInt, hn], by decide, by decide,
        by decide⟩
    · rcases he : encNat n.natAbs with _ | ⟨c, t⟩
      · exact absurd he (encNat_spec n.natAbs).1
      · have hc : c.isDigit = true := (encNat_spec n.natAbs).2.1 c (he ▸ List.mem_cons_self c t)
        have hd := digit_ne_delims c hc
        exact ⟨c, t, by simp [encJVal, encInt, hn, he], hd.1, hd.2.1, hd.2.2⟩
  | str s =>
    exact ⟨'"', escList s.data ++ ['"'], by simp [encJVal], by decide, by decide, by decide⟩
  | arr l =>
    exact ⟨'[', encArrBody l ++ [']'], by simp [encJVal], by decide, by decide, by decide⟩
  | obj l =>
    exact ⟨'\x7b', encObjBody l ++ ['\x7d'], by simp [encJVal], by decide, by decide,
      by decide⟩

/-- Every value has positive fuel size. -/
theorem szV_pos (v : JVal) : 0 < szV v := by
  cases v <;> simp [szV]

/-- The fuel size of a value, and of array and object bodies (plus one),
is bounded by the length of its rendering. -/
theorem sz_le_len : ∀ N : Nat,
    (∀ v : JVal, sizeOf v ≤ N → szV v ≤ (encJVal v).length)
      ∧ (∀ l : List JVal, sizeOf l ≤ N → szA l ≤ (encArrBody l).length + 1)
      ∧ (∀ l : List (String × JVal), sizeOf l ≤ N → szO l ≤ (encObjBody l).length + 1) := by
  intro N
  induction N with
  | zero =>
    refine ⟨fun v hv => ?_, fun l hl => ?_, fun l hl => ?_⟩
    · exact absurd hv (by cases v <;> simp_arith)
    · exact absurd hl (by cases l <;> simp_arith)
    · exact absurd hl (by cases l <;> simp_arith)
  | succ N ih =>
    refine ⟨fun v hv => ?_, fun l hl => ?_, fun l hl => ?_⟩
    · cases v with
      | null => simp [szV, encJVal]
      | bool b => cases b <;> simp [szV, encJVal]
      | num n =>
        have : encInt n ≠ [] := by
          by_cases hn : n < 0 <;> simp [encInt, hn, (encNat_spec n.natAbs).1]
        have hlen : 0 < (encInt n).length := List.length_pos.mpr this
        simpa [szV, encJVal] using hlen
      | str s => simp [szV, encJVal]
      | arr l =>
        have hsl : sizeOf l ≤ N := by
          have : sizeOf (JVal.arr l) = 1 + sizeOf l := by simp
          omega
        have hb := ih.2.1 l hsl
        simp only [szV, encJVal, List.length_cons, List.length_append]
        omega
      | obj l =>
        have hsl : sizeOf l ≤ N := by
          have : sizeOf (JVal.obj l) = 1 + sizeOf l := by simp
          omega
        have hb := ih.2.2 l hsl
        simp only [szV, encJVal, List.length_cons, List.length_append]
        omega
    · cases l with
      | nil => simp [szA]
      | cons v t =>
        have hv : sizeOf v ≤ N := by
          have : sizeOf (v :: t) = 1 + sizeOf v + sizeOf t := by simp
          have ht : 0 < sizeOf t := by cases t <;> simp_arith
          omega
        have ht : sizeOf t ≤ N := by
          have : sizeOf (v :: t) = 1 + sizeOf v + sizeOf t := by simp
          have hv0 : 0 < sizeOf v := by cases v <;> simp_arith
          omega
        have h1 := ih.1 v hv
        have h2 := ih.2.1 t ht
        cases t with
        | nil => simp only [szA, encArrBody, List.isEmpty_nil, if_true, List.append_nil]
                 simp only [szA] at *
                 omega
        | cons w u =>
          have e1 : encArrBody (v :: w :: u) = encJVal v ++ ',' :: encArrBody (w :: u) := by
            simp [encArrBody]
          rw [e1]
          simp only [szA] at h2 ⊢
          simp only [List.length_append, List.length_cons]
          omega
    · cases l with
      | nil => simp [szO]
      | cons p t =>
        rcases p with ⟨k, v⟩
        have hv : sizeOf v ≤ N := by
          have h1 : sizeOf ((k, v) :: t) = 1 + (1 + sizeOf k + sizeOf v) + sizeOf t := by
            simp
          have ht : 0 < sizeOf t := by cases t <;> simp_arith
          omega
        have ht : sizeOf t ≤ N := by
          have h1 : sizeOf ((k, v) :: t) = 1 + (1 + sizeOf k + sizeOf v) + sizeOf t := by
            simp
          have hv0 : 0 < sizeOf v := by cases v <;> simp_arith
          omega
        have h1 := ih.1 v hv
        have h2 := ih.2.2 t ht
        cases t with
        | nil => simp only [szO, encObjBody, List.isEmpty_nil, if_true, List.append_nil,
            List.length_append, List.length_cons] at *
                 omega
        | cons q u =>
          obtain ⟨k2, v2⟩ := q
          have e1 : encObjBody ((k, v) :: (k2, v2) :: u)
              = '"' :: escList k.data ++ '"' :: ':' :: encJVal v
                  ++ ',' :: encObjBody ((k2, v2) :: u) := by
            simp [encObjBody]
          rw [e1]
          simp only [szO] at h2 ⊢
          simp only [List.length_append, List.length_cons]
          omega

/- ---------------------------------------------------------------------
Codec correctness, part 2: the parser inverts the encoder.
--------------------------------------------------------------------- -/

/-- With fuel at least the value's size, the parser reads back exactly
the rendered value, leaving any tail that does not begin with a digit;
array and object bodies round-trip through their closing delimiter. -/
theorem pComplete : ∀ f : Nat,
    (∀ (v : JVal) (rest : List Char), szV v ≤ f → safeTail rest = true →
        pVal f (encJVal v ++ rest) = some (v, rest))
      ∧ (∀ (l : List JVal) (rest : List Char), l ≠ [] → szA l ≤ f →
          pElems f (encArrBody l ++ ']' :: rest) = some (l, rest))
      ∧ (∀ (l : List (String × JVal)) (rest : List Char), l ≠ [] → szO l ≤ f →
          pFields f (encObjBody l ++ '\x7d' :: rest) = some (l, rest)) := by
  intro f
  induction f with
  | zero =>
    refine ⟨fun v rest hsz _ => absurd hsz (by have := szV_pos v; omega),
      fun l rest hne hsz => ?_, fun l rest hne hsz => ?_⟩
    · rcases l with _ | ⟨v, t⟩
      · exact absurd rfl hne
      · exfalso; simp [szA] at hsz
    · rcases l with _ | ⟨⟨k, v⟩, t⟩
      · exact absurd rfl hne
      · exfalso; simp [szO] at hsz
  | succ f ih =>
    obtain ⟨P, Q, R⟩ := ih
    refine ⟨?_, ?_, ?_⟩
    · intro v rest hsz hsafe
      cases v with
      | null => rfl
      | bool b => cases b <;> rfl
      | num n =>
        by_cases hn : n < 0
        · have he : encJVal (.num n) = '-' :: encNat n.natAbs := by
            simp [encJVal, encInt, hn]
          rw [he]
          have e2 : pVal (f+1) (('-' :: encNat n.natAbs) ++ rest)
              = pNum true (encNat n.natAbs ++ rest) := rfl
          rw [e2,
            pNum_spec true _ _ (encNat_spec n.natAbs).1 (encNat_spec n.natAbs).2.1 hsafe,
            (encNat_spec n.natAbs).2.2]
          have hval : -(Int.ofNat n.natAbs) = n := by
            rw [show Int.ofNat n.natAbs = ((n.natAbs : Nat) : Int) from rfl]
            omega
          show some (JVal.num (-(Int.ofNat n.natAbs)), rest) = some (JVal.num n, rest)
          rw [hval]
        · have he : encJVal (.num n) = encNat n.natAbs := by
            simp [encJVal, encInt, hn]
          rcases hne : encNat n.natAbs with _ | ⟨c, t⟩
          · exact absurd hne (encNat_spec n.natAbs).1
          · have hc : c.isDigit = true :=
              (encNat_spec n.natAbs).2.1 c (hne ▸ List.mem_cons_self c t)
            rw [he, hne, show (c :: t) ++ rest = c :: (t ++ rest) from rfl]
            have e2 : pVal (f+1) (c :: (t ++ rest)) = pNum false (c :: (t ++ rest)) := by
              simp [pVal, hc]
            rw [e2, show c :: (t ++ rest) = (c :: t) ++ rest from rfl, ← hne,
              pNum_spec false _ _ (encNat_spec n.natAbs).1 (encNat_spec n.natAbs).2.1 hsafe,
              (encNat_spec n.natAbs).2.2]
            have hval : Int.ofNat n.natAbs = n := by
              rw [show Int.ofNat n.natAbs = ((n.natAbs : Nat) : Int) from rfl]
              omega
            show some (JVal.num (Int.ofNat n.natAbs), rest) = some (JVal.num n, rest)
            rw [hval]
      | str s =>
        have he : encJVal (.str s) ++ rest = '"' :: (escList s.data ++ '"' :: rest) := by
          simp [encJVal]
        rw [he]
        have e2 : pVal (f+1) ('"' :: (escList s.data ++ '"' :: rest))
            = match pStrBody (escList s.data ++ '"' :: rest) with
              | some (sb, r) => some (.str (String.mk sb), r)
              | none => none := rfl
        rw [e2, pStrBody_escList]
      | arr l =>
        cases l with
        | nil =>
          have he : encJVal (.arr []) ++ rest = '[' :: ']' :: rest := by
            simp [encJVal, encArrBody]
          rw [he]
          rfl
        | cons v t =>
          obtain ⟨c2, t2, hv, hne1, hne2, hne3⟩ := encJVal_head v
          have he : encJVal (.arr (v :: t)) ++ rest
              = '[' :: c2 :: (t2
                  ++ ((if t.isEmpty then [] else ',' :: encArrBody t) ++ (']' :: rest))) := by
            simp [encJVal, encArrBody, hv]
          rw [he]
          have e2 : pVal (f+1) ('[' :: c2 :: (t2
                  ++ ((if t.isEmpty then [] else ',' :: encArrBody t) ++ (']' :: rest))))
              = match pElems f (c2 :: (t2
                  ++ ((if t.isEmpty then [] else ',' :: encArrBody t) ++ (']' :: rest)))) with
                | some (l, r) => some (.arr l, r)
                | none => none := by
            simp [pVal, hne1]
          rw [e2]
          have hback : c2 :: (t2
                  ++ ((if t.isEmpty then [] else ',' :: encArrBody t) ++ (']' :: rest)))
              = encArrBody (v :: t) ++ (']' :: rest) := by
            simp [encArrBody, hv]
          rw [hback, Q (v :: t) rest (by simp) (by simp [szV, szA] at hsz ⊢; omega)]
      | obj l =>
        cases l with
        | nil =>
          have he : encJVal (.obj []) ++ rest = '\x7b' :: '\x7d' :: rest := by
            simp [encJVal, encObjBody]
          rw [he]
          rfl
        | cons p t =>
          obtain ⟨k, v⟩ := p
          have he : encJVal (.obj ((k, v) :: t)) ++ rest
              = '\x7b' :: '"' :: (escList k.data ++ ('"' :: ':' :: (encJVal v
                  ++ ((if t.isEmpty then [] else ',' :: encObjBody t)
                      ++ ('\x7d' :: rest))))) := by
            simp [encJVal, encObjBody]
          rw [he]
          have e2 : pVal (f+1) ('\x7b' :: '"' :: (escList k.data ++ ('"' :: ':' :: (encJVal v
                  ++ ((if t.isEmpty then [] else ',' :: encObjBody t)
                      ++ ('\x7d' :: rest))))))
              = match pFields f ('"' :: (escList k.data ++ ('"' :: ':' :: (encJVal v
                  ++ ((if t.isEmpty then [] else ',' :: encObjBody t)
                      ++ ('\x7d' :: rest)))))) with
                | some (l, r) => some (.obj l, r)
                | none => none := by
            simp [pVal]
          rw [e2]
          have hback : '"' :: (escList k.data ++ ('"' :: ':' :: (encJVal v
                  ++ ((if t.isEmpty then [] else ',' :: encObjBody t)
                      ++ ('\x7d' :: rest)))))
              = encObjBody ((k, v) :: t) ++ ('\x7d' :: rest) := by
            simp [encObjBody]
          rw [hback, R ((k, v) :: t) rest (by simp) (by simp [szV, szO] at hsz ⊢; omega)]
    · intro l rest hne hsz
      rcases l with _ | ⟨v, t⟩
      · exact absurd rfl hne
      · have e0 : pElems (f+1) (encArrBody (v :: t) ++ ']' :: rest)
            = match pVal f (encArrBody (v :: t) ++ ']' :: rest) with
              | none => none
              | some (v', r) =>
                match r with
                | [] => none
                | c :: r2 =>
                  if c = ',' then
                    match pElems f r2 with
                    | some (l', r3) => some (v' :: l', r3)
                    | none => none
                  else if c = ']' then some ([v'], r2)
                  else none := rfl
        rw [e0]
        cases t with
        | nil =>
          have hb : encArrBody [v] ++ ']' :: rest = encJVal v ++ (']' :: rest) := by
            simp [encArrBody]
          rw [hb, P v (']' :: rest) (by simp [szA] at hsz; omega) rfl]
          simp
        | cons w u =>
          have hb : encArrBody (v :: w :: u) ++ ']' :: rest
              = encJVal v ++ (',' :: (encArrBody (w :: u) ++ ']' :: rest)) := by
            simp [encArrBody]
          rw [hb, P v (',' :: (encArrBody (w :: u) ++ ']' :: rest))
            (by simp [szA] at hsz; omega) rfl]
          simp [Q (w :: u) rest (by simp) (by simp [szA] at hsz ⊢; omega)]
    · intro l rest hne hsz
      rcases l with _ | ⟨⟨k, v⟩, t⟩
      · exact absurd rfl hne
      · cases t with
        | nil =>
          have hb : encObjBody [(k, v)] ++ '\x7d' :: rest
              = '"' :: (escList k.data
                  ++ ('"' :: ':' :: (encJVal v ++ ('\x7d' :: rest)))) := by
            simp [encObjBody]
          rw [hb]
          have e0 : pFields (f+1) ('"' :: (escList k.data
                  ++ ('"' :: ':' :: (encJVal v ++ ('\x7d' :: rest)))))
              = match pStrBody (escList k.data
                  ++ ('"' :: ':' :: (encJVal v ++ ('\x7d' :: rest)))) with
                | none => none
                | some (kk, r) =>
                  match r with
                  | [] => none
                  | c2 :: r1 =>
                    if c2 = ':' then
                      match pVal f r1 with
                      | none => none
                      | some (v', r2) =>
                        match r2 with
                        | [] => none
                        | c3 :: r3 =>
                          if c3 = ',' then
                            match pFields f r3 with
                            | some (l', r4) => some ((String.mk kk, v') :: l', r4)
                            | none => none
                          else if c3 = '\x7d' then some ([(String.mk kk, v')], r3)
                          else none
                    else none := rfl
          rw [e0, pStrBody_escList]
          have hP := P v ('\x7d' :: rest) (by simp [szO] at hsz; omega) rfl
          simp [hP]
        | cons q u =>
          have hb : encObjBody ((k, v) :: q :: u) ++ '\x7d' :: rest
              = '"' :: (escList k.data ++ ('"' :: ':' :: (encJVal v
                  ++ (',' :: (encObjBody (q :: u) ++ '\x7d' :: rest))))) := by
            simp [encObjBody]
          rw [hb]
          have e0 : pFields (f+1) ('"' :: (escList k.data ++ ('"' :: ':' :: (encJVal v
                  ++ (',' :: (encObjBody (q :: u) ++ '\x7d' :: rest))))))
              = match pStrBody (escList k.data ++ ('"' :: ':' :: (encJVal v
                  ++ (',' :: (encObjBody (q :: u) ++ '\x7d' :: rest))))) with
                | none => none
                | some (kk, r) =>
                  match r with
                  | [] => none
                  | c2 :: r1 =>
                    if c2 = ':' then
                      match pVal f r1 with
                      | none => none
                      | some (v', r2) =>
                        match r2 with
                        | [] => none
                        | c3 :: r3 =>
                          if c3 = ',' then
                            match pFields f r3 with
                            | some (l', r4) => some ((String.mk kk, v') :: l', r4)
                            | none => none
                          else if c3 = '\x7d' then some ([(String.mk kk, v')], r3)
                          else none
                    else none := rfl
          rw [e0, pStrBody_escList]
          have hP := P v (',' :: (encObjBody (q :: u) ++ '\x7d' :: rest))
            (by simp [szO] at hsz; omega) rfl
          have hR := R (q :: u) rest (by simp) (by simp [szO] at hsz ⊢; omega)
          simp [hP, hR]

/-- Parsing the rendering of any value (with the fuel parseJson supplies)
recovers exactly that value: json.loads inverts json.dumps. -/
theorem parseJson_encJVal (v : JVal) : parseJson (String.mk (encJVal v)) = some v := by
  have hsz : szV v ≤ (encJVal v).length + 1 :=
    le_trans ((sz_le_len (sizeOf v)).1 v (le_refl _)) (Nat.le_succ _)
  have h := (pComplete ((encJVal v).length + 1)).1 v [] hsz rfl
  rw [List.append_nil] at h
  show (match pVal ((encJVal v).length + 1) (encJVal v) with
    | some (v', []) => some v'
    | _ => none) = some v
  rw [h]

/-- C6: save_cache followed by load_cache returns a store equal to the
original, for every cache dict (string keys, string or structured
values). -/
theorem c6_save_load_roundtrip (c : Store) (h : (c.map Prod.fst).Nodup) :
    load_cache (some (save_cache c)) = .obj c := by
  have hp := parseJson_encJVal (.obj c)
  simp only [load_cache, save_cache]
  rw [hp]

/-- Witness for C6 on a concrete one-entry store. -/
theorem c6_save_load_roundtrip_witness :
    load_cache (some (save_cache [("k", JVal.str "v")])) = .obj [("k", JVal.str "v")] :=
  c6_save_load_roundtrip [("k", JVal.str "v")] (by decide)

/-- C5: load_cache returns the empty store both when the file is absent
(or unreadable) and when its content fails to decode, without raising;
the two failure modes are not distinguished. -/
theorem c5_load_cache_resilience (file : Option String)
    (h : file = none ∨ ∃ s, file = some s ∧ parseJson s = none) :
    load_cache file = .obj [] := by
  rcases h with h | ⟨s, hf, hp⟩
  · rw [h]; rfl
  · rw [hf]; simp [load_cache, hp]

/-- Witness for C5: a missing file and a corrupt file both load as the
empty store. -/
theorem c5_load_cache_resilience_witness :
    load_cache none = .obj [] ∧ load_cache (some "###") = .obj [] := by
  constructor
  · exact c5_load_cache_resilience none (Or.inl rfl)
  · exact c5_load_cache_resilience (some "###") (Or.inr ⟨"###", rfl, by rfl⟩)
